import Mathlib

/- Verification of the UPC-A barcode generator front-end.

   Shallow embedding of the `BarcodeGenerator` component: the validator,
   the centimeter-to-pixel dimension mapper, the per-code renderer (with
   the external `JsBarcode` symbology encoder kept abstract), the chunked
   generation pass with its progress publications, and the zip exporter.
   Each definition is translated from the corresponding source function;
   the source names are kept wherever Lean allows. -/

/- ===== Data model ===== -/

/-- Export format selector, source `exportFormat` with values `'png' | 'svg'`. -/
inductive ExportFormat where
  | png
  | svg
deriving DecidableEq

/-- One code entry, as created by `handleFileUpload` and updated by the
generation pass: `{ number, valid, error, dataUrl, svgString }`.
A `none` models JavaScript `null`. -/
structure Barcode where
  number : String
  valid : Bool
  error : Option String
  dataUrl : Option String
  svgString : Option String
deriving DecidableEq

/-- Published progress record `{ current, total }`. -/
structure Progress where
  current : ℕ
  total : ℕ
deriving DecidableEq

/-- Target pixel dimensions handed to `generateSingleBarcode` (the
`widthPx` / `heightPx` fields of the memoized `dimensions` object). -/
structure Dims where
  widthPx : ℕ
  heightPx : ℕ
deriving DecidableEq

/- ===== Constants (source lines 6-10) ===== -/

/-- Source constant `BATCH_SIZE = 50`. -/
def BATCH_SIZE : ℕ := 50

/-- Source constant `CM_TO_PIXEL = 118.11`, commented in the source as
300 DPI (300 / 2.54). -/
def CM_TO_PIXEL : ℚ := 118.11

/-- Source constant `DEFAULT_WIDTH_CM = 2.2`. -/
def DEFAULT_WIDTH_CM : ℚ := 2.2

/-- Source constant `DEFAULT_HEIGHT_CM = 0.9557`. -/
def DEFAULT_HEIGHT_CM : ℚ := 0.9557

/-- Source constant ASPECT_RATIO = DEFAULT_WIDTH_CM / DEFAULT_HEIGHT_CM. -/
def ASPECT : ℚ := DEFAULT_WIDTH_CM / DEFAULT_HEIGHT_CM

/- ===== Dimension mapper ===== -/

/-- JavaScript `Math.round`: for every rational input x,
`Math.round x = ⌊x + 1/2⌋` (halves round toward positive infinity). -/
def jsRound (q : ℚ) : ℤ := Rat.floor (q + 1/2)

/-- Source `dimensions` (a `useMemo`):
`widthPx = Math.round(widthCm * CM_TO_PIXEL)` and
`heightPx = Math.round(heightCm * CM_TO_PIXEL)`. -/
def dimensions (widthCm heightCm : ℚ) : ℤ × ℤ :=
  (jsRound (widthCm * CM_TO_PIXEL), jsRound (heightCm * CM_TO_PIXEL))

/- ===== Validator ===== -/

/-- Source `validateBarcode`: the regular expression test `^\d{12}$`,
true exactly when the string is 12 characters, each between 0 and 9. -/
def validateBarcode (barcode : String) : Bool :=
  barcode.length == 12 && barcode.toList.all (fun c => '0' ≤ c && c ≤ '9')

/-- The entry built for one (already trimmed, non-empty) line inside
`handleFileUpload`: `valid` from `validateBarcode`, and when invalid the
error text distinguishes wrong length from non-numeric content, length
checked first. -/
def processLine (line : String) : Barcode :=
  let isValid := validateBarcode line
  { number := line
    valid := isValid
    error :=
      if isValid then none
      else if line.length ≠ 12 then some "Invalid: must be 12 digits"
      else some "Invalid: must contain only numbers"
    dataUrl := none
    svgString := none }

/-- JavaScript `String.prototype.trim`, written over the character
list so it is executable. -/
def jsTrim (s : String) : String :=
  ⟨((s.data.dropWhile Char.isWhitespace).reverse.dropWhile Char.isWhitespace).reverse⟩

/-- Source `handleFileUpload` line handling: trim each line of the
uploaded text (the text is modeled by its newline-split line list), drop
empty lines, build one entry per remaining line. -/
def handleFileUpload (lines : List String) : List Barcode :=
  ((lines.map jsTrim).filter (fun l => l.length > 0)).map processLine

/- ===== Encoder options (generateSingleBarcode, lines 155-173) ===== -/

/-- The options object passed to the external `JsBarcode` encoder. -/
structure BarcodeOptions where
  format : String
  displayValue : Bool
  width : ℕ
  height : ℤ
  margin : ℕ
  fontSize : ℕ
deriving DecidableEq

/-- The encoder options computed at the top of `generateSingleBarcode`:
margin 10, 95 UPC modules plus 2 margins of 10 = 115 total modules,
`barWidth = Math.max(1, Math.floor(widthPx / totalModules))`,
`fontSize = showNum ? Math.max(14, Math.floor(heightPx / 10)) : 0`,
`barHeight = heightPx - fontSize - 2*margin - 5` (no lower clamp). -/
def mkBarcodeOptions (widthPx heightPx : ℕ) (showNum : Bool) : BarcodeOptions :=
  let margin : ℕ := 10
  let upcModules : ℕ := 95
  let totalModules : ℕ := upcModules + 2 * margin
  let barWidth : ℕ := max 1 (widthPx / totalModules)
  let fontSize : ℕ := if showNum then max 14 (heightPx / 10) else 0
  let barHeight : ℤ := (heightPx : ℤ) - fontSize - 2 * margin - 5
  { format := "UPC", displayValue := showNum, width := barWidth,
    height := barHeight, margin := margin, fontSize := fontSize }

/- ===== Helper lemmas ===== -/

/-- The computable `Rat.floor` used by `jsRound` agrees with the ambient
`Int.floor` on rationals. -/
theorem jsRound_eq_floor (q : ℚ) : jsRound q = ⌊q + 1/2⌋ := by
  rw [jsRound, Rat.floor_def, Rat.floor_def']

/-- Monotone one-step bound for `jsRound`: inputs at distance at most 1
round to integers at distance at most 1, in order. -/
theorem jsRound_le_of_le (a b : ℚ) (h1 : a ≤ b) (h2 : b ≤ a + 1) :
    jsRound a ≤ jsRound b ∧ jsRound b ≤ jsRound a + 1 := by
  rw [jsRound_eq_floor, jsRound_eq_floor]
  refine ⟨Int.floor_le_floor (by linarith), ?_⟩
  calc ⌊b + 1/2⌋ ≤ ⌊a + 1/2 + 1⌋ := Int.floor_le_floor (by linarith)
    _ = ⌊a + 1/2⌋ + 1 := by rw [Int.floor_add_one]

/- ===== Claim theorems: C5, C3, C2 ===== -/

/-- Claim C5: a line is valid iff it is exactly 12 ASCII digit
characters; when invalid, the recorded reason reports wrong length if
the length is not 12, and otherwise reports non-numeric content (length
checked first). -/
theorem c5_validate_iff_twelve_digits (line : String) :
    (validateBarcode line = true ↔
      line.length = 12 ∧ ∀ c ∈ line.toList, c.isDigit = true) ∧
    ((processLine line).valid = validateBarcode line) ∧
    (validateBarcode line = false → line.length ≠ 12 →
      (processLine line).error = some "Invalid: must be 12 digits") ∧
    (validateBarcode line = false → line.length = 12 →
      (processLine line).error = some "Invalid: must contain only numbers") ∧
    (validateBarcode line = true → (processLine line).error = none) := by
  refine ⟨?_, rfl, ?_, ?_, ?_⟩
  · simp only [validateBarcode, Bool.and_eq_true, beq_iff_eq, List.all_eq_true, Char.isDigit]
    tauto
  · intro hv hl
    simp [processLine, hv, hl]
  · intro hv hl
    simp [processLine, hv, hl]
  · intro hv
    simp [processLine, hv]

/-- Claim C5 witness: the three spec examples, obtained from the claim
theorem at concrete inputs. -/
theorem c5_witness :
    validateBarcode "012345678905" = true ∧
    (processLine "01234567890").error = some "Invalid: must be 12 digits" ∧
    (processLine "01234567890A").error = some "Invalid: must contain only numbers" := by
  refine ⟨?_, ?_, ?_⟩
  · exact (c5_validate_iff_twelve_digits "012345678905").1.mpr (by decide)
  · exact (c5_validate_iff_twelve_digits "01234567890").2.2.1 (by decide) (by decide)
  · exact (c5_validate_iff_twelve_digits "01234567890A").2.2.2.1 (by decide) (by decide)

/-- Claim C3 counterexample: the code maps 2.2 cm to 260 px, but the
claim's formula `round(cm * dpi / 2.54)` applied at its own argument
`dpi = 118.11` gives 102, which is not within 1 pixel of 260. -/
theorem c3_counterexample :
    (dimensions 2.2 0.9557).1 = 260 ∧
    jsRound (2.2 * 118.11 / 2.54) = 102 ∧
    ¬ (((260 : ℤ) - 102).natAbs ≤ 1) := by
  refine ⟨?_, ?_, by decide⟩
  · show jsRound ((2.2 : ℚ) * CM_TO_PIXEL) = 260
    rw [CM_TO_PIXEL, jsRound_eq_floor, Int.floor_eq_iff] <;> norm_num
  · rw [jsRound_eq_floor, Int.floor_eq_iff] <;> norm_num

/-- Claim C3 as amended: the conversion is `px = round(cm * CM_TO_PIXEL)`
with the fixed pixels-per-centimeter constant `CM_TO_PIXEL = 118.11`
(an approximation of 300 DPI / 2.54, so the dpi in the spec formula is
300, not 118.11); the requested sizes 2.2 cm and 0.9557 cm map to 260 px
and 113 px, and for every size up to 30 cm the result is within 1 pixel
of `round(cm * 300 / 2.54)`. -/
theorem c3_dimension_mapping (cm : ℚ) (h0 : 0 ≤ cm) (h30 : cm ≤ 30) :
    dimensions 2.2 0.9557 = (260, 113) ∧
    (jsRound (cm * CM_TO_PIXEL) - jsRound (cm * 300 / 2.54)).natAbs ≤ 1 := by
  constructor
  · have hw : jsRound ((2.2 : ℚ) * CM_TO_PIXEL) = 260 := by
      rw [CM_TO_PIXEL, jsRound_eq_floor, Int.floor_eq_iff] <;> norm_num
    have hh : jsRound ((0.9557 : ℚ) * CM_TO_PIXEL) = 113 := by
      rw [CM_TO_PIXEL, jsRound_eq_floor, Int.floor_eq_iff] <;> norm_num
    rw [dimensions, hw, hh]
  · have h254 : (2.54 : ℚ) = 254/100 := by norm_num
    have h118 : CM_TO_PIXEL = 11811/100 := by rw [CM_TO_PIXEL]; norm_num
    have hle : cm * CM_TO_PIXEL ≤ cm * 300 / 2.54 := by
      rw [h118, h254]
      linarith
    have hclose : cm * 300 / 2.54 ≤ cm * CM_TO_PIXEL + 1 := by
      rw [h118, h254]
      linarith
    have hb := jsRound_le_of_le (cm * CM_TO_PIXEL) (cm * 300 / 2.54) hle hclose
    omega

/-- Claim C3 witness: the amended claim instantiated at 2.2 cm. -/
theorem c3_witness :
    dimensions 2.2 0.9557 = (260, 113) ∧
    (jsRound (2.2 * CM_TO_PIXEL) - jsRound (2.2 * 300 / 2.54)).natAbs ≤ 1 :=
  c3_dimension_mapping 2.2 (by norm_num) (by norm_num)

/-- Claim C2 counterexample: at target height 30 px with numbers shown,
the computed bar height is -9: the code applies no lower floor, so the
bar height does collapse to a negative value. -/
theorem c2_counterexample :
    (mkBarcodeOptions 260 30 true).height = -9 ∧
    ¬ (0 < (mkBarcodeOptions 260 30 true).height) := by decide

/-- Claim C2 as amended: the encoder-parameter mapping yields bar width
`max(1, floor(widthPx / 115))`, font size `max(14, floor(heightPx / 10))`
when numbers are shown and zero otherwise, and bar height
`heightPx - fontSize - 2*margin - smallPad` with margin 10 and pad 5 and
with no lower clamp: it can be zero or negative for small target heights,
and is positive whenever `heightPx ≥ 40`; all derivable from
`(widthPx, heightPx, showNumbers)` alone. -/
theorem c2_encoder_params (widthPx heightPx : ℕ) (showNum : Bool) :
    (mkBarcodeOptions widthPx heightPx showNum).width = max 1 (widthPx / 115) ∧
    (mkBarcodeOptions widthPx heightPx showNum).fontSize =
      (if showNum then max 14 (heightPx / 10) else 0) ∧
    (mkBarcodeOptions widthPx heightPx showNum).height =
      (heightPx : ℤ) - (mkBarcodeOptions widthPx heightPx showNum).fontSize - 2 * 10 - 5 ∧
    (40 ≤ heightPx → 0 < (mkBarcodeOptions widthPx heightPx showNum).height) := by
  refine ⟨rfl, rfl, rfl, ?_⟩
  intro hh
  simp only [mkBarcodeOptions]
  cases showNum <;> simp <;> omega

/-- Claim C2 witness: the amended claim at the default 260 by 113 target
with numbers shown. -/
theorem c2_witness :
    (mkBarcodeOptions 260 113 true).width = max 1 (260 / 115) ∧
    (mkBarcodeOptions 260 113 true).fontSize = (if true then max 14 (113 / 10) else 0) ∧
    (mkBarcodeOptions 260 113 true).height =
      (113 : ℤ) - (mkBarcodeOptions 260 113 true).fontSize - 2 * 10 - 5 ∧
    (40 ≤ 113 → 0 < (mkBarcodeOptions 260 113 true).height) :=
  c2_encoder_params 260 113 true

/- ===== Renderer (generateSingleBarcode, lines 175-252) ===== -/

/-- Geometry of the raster composite step (`drawImage` of the native
canvas onto the final canvas): the native canvas is drawn at the given
integer offsets without scaling. -/
structure Composite where
  nativeWidth : ℕ
  nativeHeight : ℕ
  offsetX : ℤ
  offsetY : ℤ
  smoothingEnabled : Bool
deriving DecidableEq

/-- The canvas returned by the png branch: its dimensions, whether it was
filled with a solid white background, and the composite step when a new
properly sized canvas had to be created. -/
structure PngRender where
  width : ℕ
  height : ℕ
  whiteBg : Bool
  composite : Option Composite
deriving DecidableEq

/-- The final svg document produced by the svg branch: explicit
width/height attributes, viewBox extent, background rectangle, the
optional centering translation group, and the encoder's native markup. -/
structure SvgRender where
  width : ℕ
  height : ℕ
  viewBoxWidth : ℕ
  viewBoxHeight : ℕ
  bgRectWidth : ℕ
  bgRectHeight : ℕ
  bgRectWhite : Bool
  group : Option (ℤ × ℤ)
  markup : String
deriving DecidableEq

/-- Abstract model of the external `JsBarcode` encoder and of the DOM
serializers. A `none` result models a thrown exception. For png the
encoder sizes the canvas itself; for svg it sets width/height attributes
(`none` modeling a missing or non-numeric attribute). `toDataURL` and
`outerHTML` abstract canvas and svg serialization. -/
structure Encoder where
  pngNative : String → BarcodeOptions → Option (ℕ × ℕ)
  svgNative : String → BarcodeOptions → Option (Option ℕ × Option ℕ)
  toDataURL : String → BarcodeOptions → PngRender → String
  svgMarkup : String → BarcodeOptions → String
  outerHTML : SvgRender → String

/-- JavaScript `parseInt(attr) || fallback`: the fallback applies when
the attribute is missing or non-numeric (NaN) and when it parses to 0. -/
def jsParseIntOr (v : Option ℕ) (fallback : ℕ) : ℕ :=
  match v with
  | none => fallback
  | some n => if n = 0 then fallback else n

/-- The png branch of `generateSingleBarcode`, DOM effects modeled by the
resulting geometry: draw on a canvas, fill white, and if the canvas
dimensions differ from the target create a new canvas at exactly the
target size with a white background, disable image smoothing, and draw
the native canvas centered at floored integer offsets without scaling.
Division on ℤ here rounds toward negative infinity, as `Math.floor`
does. -/
def renderPng (enc : Encoder) (code : String) (options : BarcodeOptions)
    (widthPx heightPx : ℕ) : Option PngRender :=
  (enc.pngNative code options).map (fun wh =>
    if wh.1 ≠ widthPx ∨ wh.2 ≠ heightPx then
      { width := widthPx, height := heightPx, whiteBg := true,
        composite := some
          { nativeWidth := wh.1, nativeHeight := wh.2,
            offsetX := ((widthPx : ℤ) - wh.1) / 2,
            offsetY := ((heightPx : ℤ) - wh.2) / 2,
            smoothingEnabled := false } }
    else
      { width := wh.1, height := wh.2, whiteBg := true, composite := none })

/-- The svg branch of `generateSingleBarcode`: read the native size from
the generated element's attributes (falling back to the target size),
build a final svg with explicit width/height/viewBox at exactly the
target size and a white background rectangle, and when the native size
differs from the target wrap the native markup in a translation group at
floored integer offsets. -/
def renderSvg (enc : Encoder) (code : String) (options : BarcodeOptions)
    (widthPx heightPx : ℕ) : Option SvgRender :=
  (enc.svgNative code options).map (fun attrs =>
    let actualWidth := jsParseIntOr attrs.1 widthPx
    let actualHeight := jsParseIntOr attrs.2 heightPx
    { width := widthPx, height := heightPx,
      viewBoxWidth := widthPx, viewBoxHeight := heightPx,
      bgRectWidth := widthPx, bgRectHeight := heightPx, bgRectWhite := true,
      group :=
        if actualWidth ≠ widthPx ∨ actualHeight ≠ heightPx then
          some (((widthPx : ℤ) - actualWidth) / 2, ((heightPx : ℤ) - actualHeight) / 2)
        else none,
      markup := enc.svgMarkup code options })

/-- Source `generateSingleBarcode`: compute the encoder options from the
target dimensions, invoke the encoder for the requested format, and on
success store the artifact (the other artifact field nulled). The catch
branch returns the entry with `valid` flipped to false, the reason
Generation failed, and both artifact fields null. -/
def generateSingleBarcode (enc : Encoder) (barcode : Barcode)
    (format : ExportFormat) (dims : Dims) (showNum : Bool) : Barcode :=
  let barcodeOptions := mkBarcodeOptions dims.widthPx dims.heightPx showNum
  match format with
  | .png =>
    match renderPng enc barcode.number barcodeOptions dims.widthPx dims.heightPx with
    | some r =>
      { barcode with dataUrl := some (enc.toDataURL barcode.number barcodeOptions r),
                     svgString := none }
    | none =>
      { barcode with valid := false, error := some "Generation failed",
                     dataUrl := none, svgString := none }
  | .svg =>
    match renderSvg enc barcode.number barcodeOptions dims.widthPx dims.heightPx with
    | some r =>
      { barcode with dataUrl := none, svgString := some (enc.outerHTML r) }
    | none =>
      { barcode with valid := false, error := some "Generation failed",
                     dataUrl := none, svgString := none }

/-- Whether the encoder throws for this code, options, and format. -/
def encThrows (enc : Encoder) (format : ExportFormat) (code : String)
    (options : BarcodeOptions) : Bool :=
  match format with
  | .png => (enc.pngNative code options).isNone
  | .svg => (enc.svgNative code options).isNone

/- ===== Batch scheduler (generateBarcodes, lines 254-285) ===== -/

/-- One entry inside a chunk (`batch.map` body): entries already marked
invalid are returned unchanged, valid entries are rendered. -/
def stepEntry (enc : Encoder) (format : ExportFormat) (dims : Dims)
    (showNum : Bool) (barcode : Barcode) : Barcode :=
  if barcode.valid then generateSingleBarcode enc barcode format dims showNum
  else barcode

/-- Count of entries with `valid == true`, the source expression
`filter(b => b.valid).length`. -/
def validCount (barcodes : List Barcode) : ℕ :=
  (barcodes.filter (fun b => b.valid)).length

/-- Entry part of the chunk loop of `generateBarcodes`: the loop walks
the copied list in slices of `BATCH_SIZE`, replacing each slice by its
processed version (written back by original index). The first argument
is structural fuel; the loop consumes at least one entry per iteration,
so fuel = list length always suffices. -/
def passEntries (f : Barcode → Barcode) : ℕ → List Barcode → List Barcode
  | _, [] => []
  | 0, pending => pending
  | fuel + 1, b :: pending =>
    ((b :: pending).take BATCH_SIZE).map f ++
      passEntries f fuel ((b :: pending).drop BATCH_SIZE)

/-- Progress part of the chunk loop of `generateBarcodes`: the value
published by `setProgress` at the end of each chunk, in order. The
published `current` is `Math.min(i + BATCH_SIZE, n)` where `n` is the
valid count of the partially updated list (processed prefix `done` plus
the just-processed batch plus the untouched rest), and `total` is the
valid count captured from the original list at pass start. -/
def passPubs (f : Barcode → Barcode) (total : ℕ) :
    ℕ → ℕ → List Barcode → List Barcode → List Progress
  | _, _, _, [] => []
  | 0, _, _, _ => []
  | fuel + 1, i, done, b :: pending =>
    ⟨min (i + BATCH_SIZE)
        (validCount (done ++ ((b :: pending).take BATCH_SIZE).map f ++
          (b :: pending).drop BATCH_SIZE)),
      total⟩ ::
      passPubs f total fuel (i + BATCH_SIZE)
        (done ++ ((b :: pending).take BATCH_SIZE).map f)
        ((b :: pending).drop BATCH_SIZE)

/-- Source `generateBarcodes`: publish `{0, total}` at pass start with
`total` the count of valid entries, process the list in chunks of
`BATCH_SIZE` publishing progress after each chunk, and publish `{0, 0}`
at completion. Returns the final entry list together with every
published progress value in order. -/
def generateBarcodes (enc : Encoder) (format : ExportFormat) (dims : Dims)
    (showNum : Bool) (barcodes : List Barcode) : List Barcode × List Progress :=
  let total := validCount barcodes
  let f := stepEntry enc format dims showNum
  (passEntries f barcodes.length barcodes,
    ⟨0, total⟩ :: (passPubs f total barcodes.length 0 [] barcodes ++ [⟨0, 0⟩]))

/-- The chunk-boundary progress publications of a pass (everything
between the initial `{0, total}` and the final `{0, 0}`). -/
def chunkPubs (enc : Encoder) (format : ExportFormat) (dims : Dims)
    (showNum : Bool) (barcodes : List Barcode) : List Progress :=
  passPubs (stepEntry enc format dims showNum) (validCount barcodes)
    barcodes.length 0 [] barcodes

/- ===== Exporter (downloadZip, lines 287-304) ===== -/

/-- One `zip.file` call: file name, content, and whether the content
string is base64 that the archiver decodes to binary. -/
structure ZipEntry where
  name : String
  content : String
  base64 : Bool
deriving DecidableEq

/-- JavaScript `dataUrl.split(',')[1]`: the payload of a data URI. -/
def base64Payload (dataUrl : String) : String :=
  ((dataUrl.splitOn ",").drop 1).headD ""

/-- File extension for the export format (`extension = exportFormat`). -/
def extOf (format : ExportFormat) : String :=
  match format with
  | .png => "png"
  | .svg => "svg"

/-- Source `downloadZip` collection loop: for each entry, if it is valid
and carries the artifact matching the export format, add one file named
`<number>.<extension>`; raster content is the base64 payload of the data
URI (decoded to binary by the archiver), vector content the svg text. -/
def downloadZipFiles (format : ExportFormat) (barcodes : List Barcode) : List ZipEntry :=
  barcodes.flatMap (fun barcode =>
    if barcode.valid then
      match format with
      | .png =>
        match barcode.dataUrl with
        | some u => [⟨barcode.number ++ "." ++ extOf format, base64Payload u, true⟩]
        | none => []
      | .svg =>
        match barcode.svgString with
        | some s => [⟨barcode.number ++ "." ++ extOf format, s, false⟩]
        | none => []
    else [])

/-- Whether an entry carries the artifact matching the export format. -/
def hasArtifact (format : ExportFormat) (barcode : Barcode) : Bool :=
  match format with
  | .png => barcode.dataUrl.isSome
  | .svg => barcode.svgString.isSome

/-- Content of the archive file for a qualifying entry, with its base64
flag. -/
def archiveContent (format : ExportFormat) (barcode : Barcode) : String × Bool :=
  match format with
  | .png => (base64Payload (barcode.dataUrl.getD ""), true)
  | .svg => (barcode.svgString.getD "", false)

/- ===== Helper lemmas on the renderer and the pass ===== -/

/-- Rendering never changes the code number. -/
theorem generateSingleBarcode_number (enc : Encoder) (b : Barcode)
    (fmt : ExportFormat) (dims : Dims) (sn : Bool) :
    (generateSingleBarcode enc b fmt dims sn).number = b.number := by
  unfold generateSingleBarcode
  cases fmt <;> dsimp only <;> split <;> rfl

/-- The per-entry step never changes the code number. -/
theorem stepEntry_number (enc : Encoder) (fmt : ExportFormat) (dims : Dims)
    (sn : Bool) (b : Barcode) :
    (stepEntry enc fmt dims sn b).number = b.number := by
  unfold stepEntry
  split
  · exact generateSingleBarcode_number enc b fmt dims sn
  · rfl

/-- Entries already marked invalid pass through the step unchanged. -/
theorem stepEntry_invalid (enc : Encoder) (fmt : ExportFormat) (dims : Dims)
    (sn : Bool) (b : Barcode) (hb : b.valid = false) :
    stepEntry enc fmt dims sn b = b := by
  simp [stepEntry, hb]

/-- The step never turns an invalid entry valid. -/
theorem stepEntry_valid_imp (enc : Encoder) (fmt : ExportFormat) (dims : Dims)
    (sn : Bool) (b : Barcode) :
    (stepEntry enc fmt dims sn b).valid = true → b.valid = true := by
  intro h
  by_cases hb : b.valid = true
  · exact hb
  · rw [stepEntry_invalid enc fmt dims sn b (by simpa using hb)] at h
    exact h

/-- When the encoder does not throw for this entry, the step preserves
the `valid` flag. -/
theorem stepEntry_valid_of_noThrow (enc : Encoder) (fmt : ExportFormat)
    (dims : Dims) (sn : Bool)
    (hne : ∀ c o, encThrows enc fmt c o = false) (b : Barcode) :
    (stepEntry enc fmt dims sn b).valid = b.valid := by
  by_cases hb : b.valid = true
  · have hthis := hne b.number (mkBarcodeOptions dims.widthPx dims.heightPx sn)
    unfold stepEntry generateSingleBarcode
    rw [if_pos hb]
    cases fmt with
    | png =>
      simp only [encThrows, Option.isNone_eq_false_iff, Option.isSome_iff_exists] at hthis
      obtain ⟨v, hv⟩ := hthis
      simp [renderPng, hv]
    | svg =>
      simp only [encThrows, Option.isNone_eq_false_iff, Option.isSome_iff_exists] at hthis
      obtain ⟨v, hv⟩ := hthis
      simp [renderSvg, hv]
  · rw [stepEntry_invalid enc fmt dims sn b (by simpa using hb)]

/-- A throwing render marks the entry failed, exactly as the catch branch
writes it. -/
theorem stepEntry_of_throw (enc : Encoder) (fmt : ExportFormat) (dims : Dims)
    (sn : Bool) (b : Barcode) (hb : b.valid = true)
    (ht : encThrows enc fmt b.number (mkBarcodeOptions dims.widthPx dims.heightPx sn) = true) :
    stepEntry enc fmt dims sn b =
      { b with valid := false, error := some "Generation failed",
               dataUrl := none, svgString := none } := by
  unfold stepEntry generateSingleBarcode
  rw [if_pos hb]
  cases fmt with
  | png =>
    simp only [encThrows, Option.isNone_iff_eq_none] at ht
    simp [renderPng, ht]
  | svg =>
    simp only [encThrows, Option.isNone_iff_eq_none] at ht
    simp [renderSvg, ht]

/-- `validCount` distributes over append. -/
theorem validCount_append (l1 l2 : List Barcode) :
    validCount (l1 ++ l2) = validCount l1 + validCount l2 := by
  simp [validCount, List.filter_append]

/-- A pointwise step that never turns invalid entries valid cannot raise
the valid count. -/
theorem validCount_map_le (f : Barcode → Barcode)
    (hf : ∀ b, (f b).valid = true → b.valid = true) (l : List Barcode) :
    validCount (l.map f) ≤ validCount l := by
  simp only [validCount, ← List.countP_eq_length_filter]
  rw [List.countP_map]
  exact List.countP_mono_left (fun b _ hb => hf b hb)

/-- A pointwise step that preserves `valid` preserves the valid count. -/
theorem validCount_map_eq (f : Barcode → Barcode)
    (hf : ∀ b, (f b).valid = b.valid) (l : List Barcode) :
    validCount (l.map f) = validCount l := by
  simp only [validCount, ← List.countP_eq_length_filter]
  rw [List.countP_map]
  exact List.countP_congr (fun b _ => by simp [Function.comp, hf])

/-- With enough fuel (list length suffices) the chunked entry loop is the
per-entry map: write-back by original index makes chunking invisible in
the final list. -/
theorem passEntries_eq_map (f : Barcode → Barcode) :
    ∀ fuel pending, pending.length ≤ fuel →
      passEntries f fuel pending = pending.map f := by
  intro fuel
  induction fuel with
  | zero =>
    intro pending hp
    have hnil : pending = [] := List.eq_nil_of_length_eq_zero (Nat.le_zero.mp hp)
    subst hnil
    rfl
  | succ n ih =>
    intro pending hp
    match pending with
    | [] => rfl
    | b :: rest =>
      rw [passEntries]
      have hlen : ((b :: rest).drop BATCH_SIZE).length ≤ n := by
        simp only [List.length_drop, List.length_cons, BATCH_SIZE] at *
        omega
      rw [ih _ hlen, ← List.map_append, List.take_append_drop]

/-- The final entry list of a pass is the per-entry map over the input. -/
theorem generateBarcodes_entries (enc : Encoder) (fmt : ExportFormat)
    (dims : Dims) (sn : Bool) (bs : List Barcode) :
    (generateBarcodes enc fmt dims sn bs).1 = bs.map (stepEntry enc fmt dims sn) :=
  passEntries_eq_map (stepEntry enc fmt dims sn) bs.length bs (Nat.le_refl _)

/- ===== Concrete encoders and entries for witnesses ===== -/

/-- A total encoder that always succeeds, with a fixed 1 by 1 native
size and fixed serializations. -/
def trivEnc : Encoder :=
  { pngNative := fun _ _ => some (1, 1),
    svgNative := fun _ _ => some (some 1, some 1),
    toDataURL := fun _ _ _ => "data:image/png;base64,QUFB",
    svgMarkup := fun _ _ => "native",
    outerHTML := fun _ => "svgdoc" }

/-- An encoder that always throws. -/
def failEnc : Encoder :=
  { pngNative := fun _ _ => none,
    svgNative := fun _ _ => none,
    toDataURL := fun _ _ _ => "",
    svgMarkup := fun _ _ => "",
    outerHTML := fun _ => "" }

/-- A parsed valid entry. -/
def exValidEntry : Barcode := ⟨"012345678905", true, none, none, none⟩

/-- A parsed invalid entry. -/
def exInvalidEntry : Barcode := ⟨"bad", false, some "Invalid: must be 12 digits", none, none⟩

/-- A valid entry that already carries a rendered png artifact. -/
def exRendered : Barcode :=
  ⟨"012345678905", true, none, some "data:image/png;base64,QUFB", none⟩

/- ===== Claim theorems: C6, C7, C10 ===== -/

/-- Claim C6: if the external encoder throws for some code during a pass,
that single entry is returned with `valid` flipped to false, a
generation-failure reason, and null artifact fields; the batch continues:
for every encoder, even one that throws on every code, the pass result is
the independent per-entry map over the whole input list, so no per-entry
render error aborts the pass or propagates out of it. -/
theorem c6_render_errors_isolated (enc : Encoder) (fmt : ExportFormat)
    (dims : Dims) (sn : Bool) (bs : List Barcode) :
    ((generateBarcodes enc fmt dims sn bs).1 = bs.map (stepEntry enc fmt dims sn)) ∧
    (∀ b : Barcode, b.valid = true →
      encThrows enc fmt b.number (mkBarcodeOptions dims.widthPx dims.heightPx sn) = true →
      stepEntry enc fmt dims sn b =
        { b with valid := false, error := some "Generation failed",
                 dataUrl := none, svgString := none }) :=
  ⟨generateBarcodes_entries enc fmt dims sn bs,
   fun b hb ht => stepEntry_of_throw enc fmt dims sn b hb ht⟩

/-- Claim C6 witness: a pass over one valid entry with an
always-throwing encoder completes with the entry marked failed. -/
theorem c6_witness :
    (stepEntry failEnc .png ⟨260, 113⟩ true exValidEntry =
      ⟨"012345678905", false, some "Generation failed", none, none⟩) ∧
    ((generateBarcodes failEnc .png ⟨260, 113⟩ true [exValidEntry]).1 =
      [stepEntry failEnc .png ⟨260, 113⟩ true exValidEntry]) := by
  have h := c6_render_errors_isolated failEnc .png ⟨260, 113⟩ true [exValidEntry]
  exact ⟨h.2 exValidEntry rfl rfl, h.1⟩

/-- Claim C7: a full generation pass preserves the original input order:
the result has the same length and the entry at each index keeps its
code number, because results are written back by original index. -/
theorem c7_order_preserved (enc : Encoder) (fmt : ExportFormat)
    (dims : Dims) (sn : Bool) (bs : List Barcode) :
    ((generateBarcodes enc fmt dims sn bs).1.length = bs.length) ∧
    (∀ k (h1 : k < bs.length)
        (h2 : k < (generateBarcodes enc fmt dims sn bs).1.length),
      ((generateBarcodes enc fmt dims sn bs).1.get ⟨k, h2⟩).number =
        (bs.get ⟨k, h1⟩).number) := by
  rw [generateBarcodes_entries enc fmt dims sn bs]
  refine ⟨List.length_map bs _, ?_⟩
  intro k h1 h2
  simp [List.get_eq_getElem, List.getElem_map, stepEntry_number]

/-- Claim C7 witness: the order facts at a concrete two-entry list. -/
theorem c7_witness :
    ((generateBarcodes trivEnc .png ⟨260, 113⟩ true
        [exValidEntry, exInvalidEntry]).1.length = 2) ∧
    (((generateBarcodes trivEnc .png ⟨260, 113⟩ true
        [exValidEntry, exInvalidEntry]).1.get ⟨0, by decide⟩).number =
      (([exValidEntry, exInvalidEntry] : List Barcode).get ⟨0, by decide⟩).number) := by
  have h := c7_order_preserved trivEnc .png ⟨260, 113⟩ true [exValidEntry, exInvalidEntry]
  exact ⟨h.1, h.2 0 (by decide) (by decide)⟩

/-- Claim C10: a generation pass never adds, removes, or renames entries:
the result has the same length, keeps every code number in place, and
returns every entry that was invalid at pass start completely
unchanged. -/
theorem c10_pass_frame (enc : Encoder) (fmt : ExportFormat)
    (dims : Dims) (sn : Bool) (bs : List Barcode) :
    ((generateBarcodes enc fmt dims sn bs).1.length = bs.length) ∧
    (∀ k (h1 : k < bs.length)
        (h2 : k < (generateBarcodes enc fmt dims sn bs).1.length),
      ((generateBarcodes enc fmt dims sn bs).1.get ⟨k, h2⟩).number =
        (bs.get ⟨k, h1⟩).number) ∧
    (∀ k (h1 : k < bs.length)
        (h2 : k < (generateBarcodes enc fmt dims sn bs).1.length),
      (bs.get ⟨k, h1⟩).valid = false →
      (generateBarcodes enc fmt dims sn bs).1.get ⟨k, h2⟩ = bs.get ⟨k, h1⟩) := by
  rw [generateBarcodes_entries enc fmt dims sn bs]
  refine ⟨List.length_map bs _, ?_, ?_⟩
  · intro k h1 h2
    simp [List.get_eq_getElem, List.getElem_map, stepEntry_number]
  · intro k h1 h2 hk
    simp only [List.get_eq_getElem, List.getElem_map]
    exact stepEntry_invalid enc fmt dims sn _ hk

/-- Claim C10 witness: the frame facts at a concrete list whose only
entry is invalid. -/
theorem c10_witness :
    ((generateBarcodes trivEnc .png ⟨260, 113⟩ true [exInvalidEntry]).1.length = 1) ∧
    ((generateBarcodes trivEnc .png ⟨260, 113⟩ true [exInvalidEntry]).1.get ⟨0, by decide⟩ =
      (([exInvalidEntry] : List Barcode)).get ⟨0, by decide⟩) := by
  have h := c10_pass_frame trivEnc .png ⟨260, 113⟩ true [exInvalidEntry]
  exact ⟨h.1, h.2.2 0 (by decide) (by decide) (by decide)⟩

/- ===== Claim theorem: C8 ===== -/

/-- Claim C8: for every entry list and export format, the archive's file
list has exactly one file named `<code>.<ext>` for every entry with
`valid == true` and a non-null artifact of that format — raster content
the decoded base64 payload of the data URI, vector content the svg
text — and entries that are invalid or lack that artifact contribute
zero files: the file list is exactly the map over the filtered
qualifying entries. -/
theorem c8_archive_files (format : ExportFormat) (bs : List Barcode) :
    (downloadZipFiles format bs =
      (bs.filter (fun b => b.valid && hasArtifact format b)).map
        (fun b => ⟨b.number ++ "." ++ extOf format, (archiveContent format b).1,
                   (archiveContent format b).2⟩)) ∧
    ((downloadZipFiles format bs).length =
      (bs.filter (fun b => b.valid && hasArtifact format b)).length) := by
  have h1 : downloadZipFiles format bs =
      (bs.filter (fun b => b.valid && hasArtifact format b)).map
        (fun b => (⟨b.number ++ "." ++ extOf format, (archiveContent format b).1,
                   (archiveContent format b).2⟩ : ZipEntry)) := by
    induction bs with
    | nil => rfl
    | cons b rest ih =>
      simp only [downloadZipFiles, List.flatMap_cons, List.filter_cons] at *
      by_cases hb : b.valid
      · cases format with
        | png =>
          cases hu : b.dataUrl with
          | some u => simp [hb, hu, hasArtifact, archiveContent, ih]
          | none => simp [hb, hu, hasArtifact, archiveContent, ih]
        | svg =>
          cases hu : b.svgString with
          | some u => simp [hb, hu, hasArtifact, archiveContent, ih]
          | none => simp [hb, hu, hasArtifact, archiveContent, ih]
      · simp only [Bool.not_eq_true] at hb
        simp [hb, ih]
  exact ⟨h1, by rw [h1, List.length_map]⟩

/- ===== Progress lemmas for the chunk loop ===== -/

/-- When every entry satisfies the predicate, the valid count is the
length. -/
theorem validCount_eq_length (l : List Barcode) (h : ∀ b ∈ l, b.valid = true) :
    validCount l = l.length := by
  simp only [validCount, ← List.countP_eq_length_filter]
  exact List.countP_eq_length.mpr h

/-- Closed form of the chunk publications when the step preserves the
`valid` flag: the k-th publication is
`min(i + BATCH_SIZE*(k+1), C)` against the constant valid count `C` of
the working list. -/
theorem passPubs_closed (f : Barcode → Barcode) (hf : ∀ b, (f b).valid = b.valid)
    (total : ℕ) :
    ∀ fuel i done pending, pending.length ≤ fuel →
      passPubs f total fuel i done pending =
        (List.range ((pending.length + (BATCH_SIZE - 1)) / BATCH_SIZE)).map
          (fun k => ⟨min (i + BATCH_SIZE * (k + 1))
            (validCount done + validCount pending), total⟩) := by
  intro fuel
  induction fuel with
  | zero =>
    intro i done pending hp
    have hnil : pending = [] := List.eq_nil_of_length_eq_zero (Nat.le_zero.mp hp)
    subst hnil
    simp [passPubs, BATCH_SIZE]
  | succ n ih =>
    intro i done pending hp
    match pending with
    | [] => simp [passPubs, BATCH_SIZE]
    | b :: rest =>
      rw [passPubs]
      have hvc : validCount (done ++ ((b :: rest).take BATCH_SIZE).map f ++
          (b :: rest).drop BATCH_SIZE) = validCount done + validCount (b :: rest) := by
        rw [validCount_append, validCount_append, validCount_map_eq f hf,
          Nat.add_assoc, ← validCount_append, List.take_append_drop]
      have hrest : ((b :: rest).drop BATCH_SIZE).length ≤ n := by
        simp only [List.length_drop, List.length_cons, BATCH_SIZE] at *
        omega
      rw [ih (i + BATCH_SIZE) (done ++ ((b :: rest).take BATCH_SIZE).map f) _ hrest]
      have hvc2 : validCount (done ++ ((b :: rest).take BATCH_SIZE).map f) +
          validCount ((b :: rest).drop BATCH_SIZE) =
            validCount done + validCount (b :: rest) := by
        rw [validCount_append, validCount_map_eq f hf, Nat.add_assoc,
          ← validCount_append, List.take_append_drop]
      rw [hvc, hvc2]
      have hK : ((b :: rest).length + (BATCH_SIZE - 1)) / BATCH_SIZE =
          (((b :: rest).drop BATCH_SIZE).length + (BATCH_SIZE - 1)) / BATCH_SIZE + 1 := by
        simp only [List.length_drop, List.length_cons, BATCH_SIZE]
        omega
      rw [hK, List.range_succ_eq_map, List.map_cons, List.map_map, List.cons.injEq]
      refine ⟨?_, ?_⟩
      · norm_num
      · apply List.map_congr_left
        intro k hk
        have harg : BATCH_SIZE * (k + 1 + 1) = BATCH_SIZE + BATCH_SIZE * (k + 1) := by ring
        simp only [Function.comp, Nat.succ_eq_add_one, harg, Nat.add_assoc]

/-- Every chunk publication carries the captured `total` and a `current`
bounded by it, provided the step never turns invalid entries valid and
the working list's valid count is at most `total`. -/
theorem passPubs_bound (f : Barcode → Barcode)
    (hf : ∀ b, (f b).valid = true → b.valid = true) (total : ℕ) :
    ∀ fuel i done pending, validCount done + validCount pending ≤ total →
      ∀ p ∈ passPubs f total fuel i done pending,
        p.total = total ∧ p.current ≤ total := by
  intro fuel
  induction fuel with
  | zero =>
    intro i done pending hb p hp
    cases pending <;> simp [passPubs] at hp
  | succ n ih =>
    intro i done pending hb p hp
    match pending with
    | [] => simp [passPubs] at hp
    | b :: rest =>
      rw [passPubs] at hp
      have h1 : validCount (((b :: rest).take BATCH_SIZE).map f) ≤
          validCount ((b :: rest).take BATCH_SIZE) := validCount_map_le f hf _
      have h2 : validCount ((b :: rest).take BATCH_SIZE) +
          validCount ((b :: rest).drop BATCH_SIZE) = validCount (b :: rest) := by
        rw [← validCount_append, List.take_append_drop]
      rcases List.mem_cons.mp hp with heq | hmem
      · subst heq
        refine ⟨rfl, ?_⟩
        have hA : validCount (done ++ ((b :: rest).take BATCH_SIZE).map f ++
            (b :: rest).drop BATCH_SIZE) ≤ total := by
          rw [validCount_append, validCount_append]
          omega
        exact le_trans (Nat.min_le_right _ _) hA
      · refine ih (i + BATCH_SIZE) _ _ ?_ p hmem
        rw [validCount_append]
        omega

/-- Currents are non-decreasing along a min-with-constant chunk
schedule. -/
theorem chainOfMinSchedule (C t : ℕ) :
    ∀ K i, List.Chain' (fun p q : Progress => p.current ≤ q.current)
      ((List.range K).map (fun k => ⟨min (i + BATCH_SIZE * (k + 1)) C, t⟩)) := by
  intro K
  induction K with
  | zero => intro i; simp
  | succ n ih =>
    intro i
    rw [List.range_succ_eq_map, List.map_cons, List.map_map]
    have htail : (List.range n).map
        ((fun k => (⟨min (i + BATCH_SIZE * (k + 1)) C, t⟩ : Progress)) ∘ Nat.succ) =
        (List.range n).map
          (fun k => ⟨min ((i + BATCH_SIZE) + BATCH_SIZE * (k + 1)) C, t⟩) := by
      apply List.map_congr_left
      intro k hk
      have harg : BATCH_SIZE * (k + 1 + 1) = BATCH_SIZE + BATCH_SIZE * (k + 1) := by ring
      simp only [Function.comp, Nat.succ_eq_add_one, harg, Nat.add_assoc]
    rw [htail]
    refine List.chain'_cons'.mpr ⟨?_, ih (i + BATCH_SIZE)⟩
    intro y hy
    rcases n with _ | m
    · simp at hy
    · rw [List.range_succ_eq_map, List.map_cons, List.head?_cons] at hy
      simp only [Option.mem_def, Option.some.injEq] at hy
      subst hy
      show min (i + BATCH_SIZE * (0 + 1)) C ≤ min (i + BATCH_SIZE + BATCH_SIZE * (0 + 1)) C
      omega

/-- The last publication of a non-empty min-with-constant schedule. -/
theorem lastOfMinSchedule (C t : ℕ) (K i : ℕ) (hK : 0 < K) :
    ((List.range K).map
      (fun k => (⟨min (i + BATCH_SIZE * (k + 1)) C, t⟩ : Progress))).getLast? =
      some ⟨min (i + BATCH_SIZE * K) C, t⟩ := by
  rcases K with _ | m
  · omega
  · rw [List.range_succ, List.map_append, List.map_cons, List.map_nil,
      List.getLast?_concat]

/-- In an all-valid no-failure schedule over `n` entries, exactly one
chunk publication reaches `current = total`. -/
theorem countOfMinSchedule (n : ℕ) (hn : 0 < n) :
    ((List.range ((n + (BATCH_SIZE - 1)) / BATCH_SIZE)).map
      (fun k => (⟨min (0 + BATCH_SIZE * (k + 1)) n, n⟩ : Progress))).countP
        (fun p => p.current == p.total) = 1 := by
  rw [List.countP_map]
  have hcongr : ∀ k ∈ List.range ((n + (BATCH_SIZE - 1)) / BATCH_SIZE),
      (((fun p : Progress => p.current == p.total) ∘
        (fun k => (⟨min (0 + BATCH_SIZE * (k + 1)) n, n⟩ : Progress))) k = true) ↔
      ((fun k => k == (n + (BATCH_SIZE - 1)) / BATCH_SIZE - 1) k = true) := by
    intro k hk
    rw [List.mem_range] at hk
    simp only [Function.comp, beq_iff_eq, BATCH_SIZE] at *
    omega
  rw [List.countP_congr hcongr]
  have hmem : (n + (BATCH_SIZE - 1)) / BATCH_SIZE - 1 ∈
      List.range ((n + (BATCH_SIZE - 1)) / BATCH_SIZE) := by
    rw [List.mem_range]
    simp only [BATCH_SIZE]
    omega
  have h1 := List.count_eq_one_of_mem
    (List.nodup_range ((n + (BATCH_SIZE - 1)) / BATCH_SIZE)) hmem
  simpa [List.count] using h1

/- ===== Claim theorems: C1 ===== -/

/-- Claim C1 counterexample: a pass over a single valid entry whose
render throws publishes the chunk progress `{0, 1}`: `current` is 0,
not the cumulative count of valid entries processed (1, capped at
total = 1), and no published value ever has `current = total`, so
`current` does not equal `total` at the final chunk. -/
theorem c1_counterexample :
    ((generateBarcodes failEnc .png ⟨260, 113⟩ true [exValidEntry]).2 =
      [⟨0, 1⟩, ⟨0, 1⟩, ⟨0, 0⟩]) ∧
    ((generateBarcodes failEnc .png ⟨260, 113⟩ true [exValidEntry]).2.countP
      (fun p => p.current == 1) = 0) := by
  decide

/-- Claim C1 as amended: during a generation pass, the published
sequence is `{0, total}`, then one chunk publication per chunk, then the
reset `{0, 0}` at completion, where `total` is the count of valid
entries at pass start. Every chunk publication carries that `total` and
a `current` capped at `total`; `current` is
`min(entries processed so far - valid and invalid alike -, count of
entries still valid in the updated list)`, not the count of valid
entries processed. When the encoder never throws, `current` is
non-decreasing across the pass; when additionally every entry is valid
and the list is non-empty, `current` equals `total` exactly once, at the
final chunk. -/
theorem c1_progress_schedule (enc : Encoder) (fmt : ExportFormat)
    (dims : Dims) (sn : Bool) (bs : List Barcode) :
    ((generateBarcodes enc fmt dims sn bs).2 =
      ⟨0, validCount bs⟩ :: (chunkPubs enc fmt dims sn bs ++ [⟨0, 0⟩])) ∧
    (∀ p ∈ chunkPubs enc fmt dims sn bs,
      p.total = validCount bs ∧ p.current ≤ validCount bs) ∧
    ((∀ c o, encThrows enc fmt c o = false) →
      List.Chain' (fun p q => p.current ≤ q.current)
        (chunkPubs enc fmt dims sn bs)) ∧
    ((∀ c o, encThrows enc fmt c o = false) → (∀ b ∈ bs, b.valid = true) →
      bs ≠ [] →
      ((chunkPubs enc fmt dims sn bs).getLast? =
        some ⟨validCount bs, validCount bs⟩ ∧
       (chunkPubs enc fmt dims sn bs).countP
        (fun p => p.current == p.total) = 1)) := by
  refine ⟨rfl, ?_, ?_, ?_⟩
  · intro p hp
    refine passPubs_bound (stepEntry enc fmt dims sn)
      (stepEntry_valid_imp enc fmt dims sn) (validCount bs)
      bs.length 0 [] bs ?_ p hp
    simp [validCount]
  · intro hne
    rw [chunkPubs, passPubs_closed (stepEntry enc fmt dims sn)
      (stepEntry_valid_of_noThrow enc fmt dims sn hne) (validCount bs)
      bs.length 0 [] bs (Nat.le_refl _)]
    exact chainOfMinSchedule _ _ _ 0
  · intro hne hval hne2
    have hlen : validCount bs = bs.length := validCount_eq_length bs hval
    have hpos : 0 < bs.length := List.length_pos.mpr hne2
    have hC : validCount ([] : List Barcode) + validCount bs = bs.length := by
      have h0 : validCount ([] : List Barcode) = 0 := rfl
      omega
    rw [chunkPubs, passPubs_closed (stepEntry enc fmt dims sn)
      (stepEntry_valid_of_noThrow enc fmt dims sn hne) (validCount bs)
      bs.length 0 [] bs (Nat.le_refl _), hC]
    constructor
    · have hKpos : 0 < (bs.length + (BATCH_SIZE - 1)) / BATCH_SIZE := by
        simp only [BATCH_SIZE]
        omega
      rw [lastOfMinSchedule bs.length (validCount bs) _ 0 hKpos]
      have hmin : min (0 + BATCH_SIZE * ((bs.length + (BATCH_SIZE - 1)) / BATCH_SIZE))
          bs.length = bs.length := by
        simp only [BATCH_SIZE]
        omega
      rw [hmin, hlen]
    · have hcnt := countOfMinSchedule bs.length hpos
      rw [hlen]
      exact hcnt

/-- Claim C1 witness: the amended claim instantiated at a one-entry
all-valid list with a never-throwing encoder. -/
theorem c1_witness :
    ((generateBarcodes trivEnc .png ⟨260, 113⟩ true [exValidEntry]).2 =
      ⟨0, validCount [exValidEntry]⟩ ::
        (chunkPubs trivEnc .png ⟨260, 113⟩ true [exValidEntry] ++ [⟨0, 0⟩])) ∧
    ((chunkPubs trivEnc .png ⟨260, 113⟩ true [exValidEntry]).getLast? =
      some ⟨validCount [exValidEntry], validCount [exValidEntry]⟩) ∧
    ((chunkPubs trivEnc .png ⟨260, 113⟩ true [exValidEntry]).countP
      (fun p => p.current == p.total) = 1) := by
  have h := c1_progress_schedule trivEnc .png ⟨260, 113⟩ true [exValidEntry]
  have h4 := h.2.2.2 (fun c o => rfl) (by decide) (by decide)
  exact ⟨h.1, h4.1, h4.2⟩

/- ===== Claim theorems: C4 ===== -/

/-- Claim C4: whenever the native encoder artifact size differs from the
target, the png branch produces a new canvas at exactly the target size,
white-filled, with the native canvas composited at floored centered
integer offsets (left/right and top/bottom margins differ by at most
one pixel), without scaling (the composite keeps the native dimensions)
and with smoothing disabled; the svg branch always produces a document
with explicit width/height/viewBox equal to the target size and a white
background rectangle, wrapping the native markup in a translation group
exactly when the (attribute-derived) native size differs from the
target. -/
theorem c4_render_exact_target (enc : Encoder) (code : String)
    (options : BarcodeOptions) (widthPx heightPx w h : ℕ)
    (attrs : Option ℕ × Option ℕ) :
    (enc.pngNative code options = some (w, h) → (w ≠ widthPx ∨ h ≠ heightPx) →
      (renderPng enc code options widthPx heightPx =
        some { width := widthPx, height := heightPx, whiteBg := true,
               composite := some
                 { nativeWidth := w, nativeHeight := h,
                   offsetX := ((widthPx : ℤ) - w) / 2,
                   offsetY := ((heightPx : ℤ) - h) / 2,
                   smoothingEnabled := false } }) ∧
      (0 ≤ ((widthPx : ℤ) - w) - 2 * (((widthPx : ℤ) - w) / 2) ∧
        ((widthPx : ℤ) - w) - 2 * (((widthPx : ℤ) - w) / 2) ≤ 1) ∧
      (0 ≤ ((heightPx : ℤ) - h) - 2 * (((heightPx : ℤ) - h) / 2) ∧
        ((heightPx : ℤ) - h) - 2 * (((heightPx : ℤ) - h) / 2) ≤ 1)) ∧
    (enc.svgNative code options = some attrs →
      renderSvg enc code options widthPx heightPx =
        some { width := widthPx, height := heightPx,
               viewBoxWidth := widthPx, viewBoxHeight := heightPx,
               bgRectWidth := widthPx, bgRectHeight := heightPx,
               bgRectWhite := true,
               group :=
                 if jsParseIntOr attrs.1 widthPx ≠ widthPx ∨
                     jsParseIntOr attrs.2 heightPx ≠ heightPx then
                   some (((widthPx : ℤ) - jsParseIntOr attrs.1 widthPx) / 2,
                         ((heightPx : ℤ) - jsParseIntOr attrs.2 heightPx) / 2)
                 else none,
               markup := enc.svgMarkup code options }) := by
  constructor
  · intro hp hne
    refine ⟨?_, ?_, ?_⟩
    · rw [renderPng, hp, Option.map_some']
      dsimp only
      rw [if_pos hne]
    · omega
    · omega
  · intro hs
    rw [renderSvg, hs, Option.map_some']

/-- Claim C4 witness: the render geometry at the default 260 by 113
target with a 1 by 1 native artifact. -/
theorem c4_witness :
    (renderPng trivEnc "012345678905" (mkBarcodeOptions 260 113 true) 260 113 =
      some { width := 260, height := 113, whiteBg := true,
             composite := some
               { nativeWidth := 1, nativeHeight := 1,
                 offsetX := ((260 : ℤ) - 1) / 2, offsetY := ((113 : ℤ) - 1) / 2,
                 smoothingEnabled := false } }) ∧
    (renderSvg trivEnc "012345678905" (mkBarcodeOptions 260 113 true) 260 113 =
      some { width := 260, height := 113,
             viewBoxWidth := 260, viewBoxHeight := 113,
             bgRectWidth := 260, bgRectHeight := 113, bgRectWhite := true,
             group :=
               if jsParseIntOr (some 1) 260 ≠ 260 ∨ jsParseIntOr (some 1) 113 ≠ 113 then
                 some (((260 : ℤ) - jsParseIntOr (some 1) 260) / 2,
                       ((113 : ℤ) - jsParseIntOr (some 1) 113) / 2)
               else none,
             markup := trivEnc.svgMarkup "012345678905" (mkBarcodeOptions 260 113 true) }) := by
  have hthm := c4_render_exact_target trivEnc "012345678905"
    (mkBarcodeOptions 260 113 true) 260 113 1 1 (some 1, some 1)
  exact ⟨(hthm.1 rfl (by decide)).1, hthm.2 rfl⟩

/- ===== Application state machine (settings, upload, pass) ===== -/

/-- The component state: the settings (`showNumbers`, `exportFormat`,
`widthCm`, `heightCm`, `lockRatio` — named `lockAspect` here), the entry
list, and the published progress. -/
structure AppState where
  showNumbers : Bool
  exportFormat : ExportFormat
  widthCm : ℚ
  heightCm : ℚ
  lockAspect : Bool
  barcodes : List Barcode
  progress : Progress

/-- The `useState` initial values. -/
def initState : AppState :=
  { showNumbers := true, exportFormat := .png,
    widthCm := DEFAULT_WIDTH_CM, heightCm := DEFAULT_HEIGHT_CM,
    lockAspect := true, barcodes := [], progress := ⟨0, 0⟩ }

/-- JavaScript `parseFloat(value) || fallback`: NaN (modeled `none`) and
0 fall back to the default. -/
def jsOrDefault (v : Option ℚ) (fallback : ℚ) : ℚ :=
  match v with
  | none => fallback
  | some x => if x = 0 then fallback else x

/-- Source `handleWidthChange`: set the width (malformed input falls back
to the default width), and with the ratio locked recompute the height
from the fixed aspect; the entry list is not touched. -/
def handleWidthChange (value : Option ℚ) (s : AppState) : AppState :=
  if s.lockAspect then
    { s with widthCm := jsOrDefault value DEFAULT_WIDTH_CM,
             heightCm := jsOrDefault value DEFAULT_WIDTH_CM / ASPECT }
  else { s with widthCm := jsOrDefault value DEFAULT_WIDTH_CM }

/-- Source `handleHeightChange`, symmetric to `handleWidthChange`. -/
def handleHeightChange (value : Option ℚ) (s : AppState) : AppState :=
  if s.lockAspect then
    { s with heightCm := jsOrDefault value DEFAULT_HEIGHT_CM,
             widthCm := jsOrDefault value DEFAULT_HEIGHT_CM * ASPECT }
  else { s with heightCm := jsOrDefault value DEFAULT_HEIGHT_CM }

/-- The per-chunk write-back (`processedBatch.forEach`): replace the
slice starting at index `i` by its processed version, leaving everything
else in place. -/
def applyChunk (f : Barcode → Barcode) (i : ℕ) (barcodes : List Barcode) : List Barcode :=
  barcodes.take i ++ ((barcodes.drop i).take BATCH_SIZE).map f ++
    (barcodes.drop i).drop BATCH_SIZE

/-- One observable state transition of the component: a settings change,
a file upload, one chunk of a generation pass together with its progress
publication, or a bare progress update (pass start and completion). -/
inductive Step : AppState → AppState → Prop where
  | setShowNumbers (v : Bool) (s : AppState) : Step s { s with showNumbers := v }
  | setExportFormat (v : ExportFormat) (s : AppState) : Step s { s with exportFormat := v }
  | setLockAspect (v : Bool) (s : AppState) : Step s { s with lockAspect := v }
  | widthChange (v : Option ℚ) (s : AppState) : Step s (handleWidthChange v s)
  | heightChange (v : Option ℚ) (s : AppState) : Step s (handleHeightChange v s)
  | upload (lines : List String) (s : AppState) :
      Step s { s with barcodes := handleFileUpload lines, progress := ⟨0, 0⟩ }
  | chunk (enc : Encoder) (dims : Dims) (sn : Bool) (fmt : ExportFormat)
      (i : ℕ) (p : Progress) (s : AppState) :
      Step s { s with
        barcodes := applyChunk (stepEntry enc fmt dims sn) i s.barcodes,
        progress := p }
  | setProgress (p : Progress) (s : AppState) : Step s { s with progress := p }

/-- States reachable from the initial component state. -/
inductive Reachable : AppState → Prop where
  | init : Reachable initState
  | step {s t : AppState} : Reachable s → Step s t → Reachable t

/-- The step preserves, entrywise, the invariant that an artifact is
present only on valid entries. -/
theorem stepEntry_artifact_inv (enc : Encoder) (fmt : ExportFormat)
    (dims : Dims) (sn : Bool) (a : Barcode)
    (ha : (a.dataUrl.isSome || a.svgString.isSome) = true → a.valid = true) :
    ((stepEntry enc fmt dims sn a).dataUrl.isSome ||
      (stepEntry enc fmt dims sn a).svgString.isSome) = true →
    (stepEntry enc fmt dims sn a).valid = true := by
  intro hart
  by_cases hav : a.valid = true
  · have hv : (stepEntry enc fmt dims sn a).valid = true ∨
        ((stepEntry enc fmt dims sn a).dataUrl = none ∧
          (stepEntry enc fmt dims sn a).svgString = none) := by
      rw [stepEntry, if_pos hav]
      cases fmt with
      | png =>
        rw [generateSingleBarcode]
        cases hr : renderPng enc a.number
            (mkBarcodeOptions dims.widthPx dims.heightPx sn)
            dims.widthPx dims.heightPx with
        | some r => left; exact hav
        | none => right; exact ⟨rfl, rfl⟩
      | svg =>
        rw [generateSingleBarcode]
        cases hr : renderSvg enc a.number
            (mkBarcodeOptions dims.widthPx dims.heightPx sn)
            dims.widthPx dims.heightPx with
        | some r => left; exact hav
        | none => right; exact ⟨rfl, rfl⟩
    rcases hv with h | ⟨h1, h2⟩
    · exact h
    · rw [h1, h2] at hart
      simp at hart
  · rw [stepEntry_invalid enc fmt dims sn a (by simpa using hav)] at hart ⊢
    exact ha hart

/-- The chunk write-back preserves the artifact-only-if-valid invariant
of the whole list. -/
theorem applyChunk_artifact_inv (enc : Encoder) (fmt : ExportFormat)
    (dims : Dims) (sn : Bool) (i : ℕ) (bs : List Barcode)
    (hinv : ∀ b ∈ bs, (b.dataUrl.isSome || b.svgString.isSome) = true → b.valid = true) :
    ∀ b ∈ applyChunk (stepEntry enc fmt dims sn) i bs,
      (b.dataUrl.isSome || b.svgString.isSome) = true → b.valid = true := by
  intro b hb hart
  rw [applyChunk] at hb
  rcases List.mem_append.mp hb with hb1 | hb2
  · rcases List.mem_append.mp hb1 with hb11 | hb12
    · exact hinv b (List.mem_of_mem_take hb11) hart
    · obtain ⟨a, ha, rfl⟩ := List.mem_map.mp hb12
      have hamem : a ∈ bs := List.mem_of_mem_drop (List.mem_of_mem_take ha)
      exact stepEntry_artifact_inv enc fmt dims sn a (hinv a hamem) hart
  · exact hinv b (List.mem_of_mem_drop (List.mem_of_mem_drop hb2)) hart

/- ===== Claim theorems: C9 ===== -/

/-- State after uploading a single-line file. -/
def exUploadedState : AppState :=
  { initState with barcodes := handleFileUpload ["012345678905"], progress := ⟨0, 0⟩ }

/-- State after the (single) generation chunk over the uploaded entry. -/
def exGeneratedState : AppState :=
  { exUploadedState with
    barcodes := applyChunk (stepEntry trivEnc .png ⟨260, 113⟩ true) 0
      exUploadedState.barcodes,
    progress := ⟨0, 0⟩ }

/-- Claim C9 counterexample: a width-setting change leaves the entry
list — including its rendered artifact — completely untouched, so
artifacts are not cleared on settings changes. -/
theorem c9_counterexample :
    ((handleWidthChange (some 3) exGeneratedState).barcodes =
      exGeneratedState.barcodes) ∧
    ((exGeneratedState.barcodes.all
      (fun b => b.dataUrl.isNone && b.svgString.isNone)) = false) := by
  constructor
  · rfl
  · decide

/-- Claim C9 as amended: settings changes (size, format, show-numbers)
do not clear artifacts — the entry list is untouched by every settings
transition and artifacts persist until the next pass or upload; the
second half of the claim holds: in every reachable state an entry's
artifact (dataUrl or svgString) is non-null only if its valid flag is
true. -/
theorem c9_artifact_only_if_valid (s : AppState) (hr : Reachable s) :
    ∀ b ∈ s.barcodes,
      (b.dataUrl.isSome || b.svgString.isSome) = true → b.valid = true := by
  induction hr with
  | init =>
    intro b hb hart
    simp [initState] at hb
  | step hprev hstep ih =>
    cases hstep with
    | setShowNumbers v s2 => exact ih
    | setExportFormat v s2 => exact ih
    | setLockAspect v s2 => exact ih
    | widthChange v s2 =>
      intro b hb hart
      rw [handleWidthChange] at hb
      split at hb
      · exact ih b hb hart
      · exact ih b hb hart
    | heightChange v s2 =>
      intro b hb hart
      rw [handleHeightChange] at hb
      split at hb
      · exact ih b hb hart
      · exact ih b hb hart
    | upload lines s2 =>
      intro b hb hart
      have hb2 : b ∈ handleFileUpload lines := hb
      rw [handleFileUpload] at hb2
      obtain ⟨l, hl, rfl⟩ := List.mem_map.mp hb2
      simp [processLine] at hart
    | chunk enc dims sn fmt i p s2 =>
      intro b hb hart
      exact applyChunk_artifact_inv enc fmt dims sn i _ ih b hb hart
    | setProgress p s2 => exact ih

/-- Claim C9 witness: the invariant applied at a concretely reachable
state (initial state, then upload, then one generation chunk) and at the
rendered entry it contains. -/
theorem c9_witness :
    (stepEntry trivEnc .png ⟨260, 113⟩ true (processLine "012345678905")).valid = true := by
  have h1 : Reachable exUploadedState :=
    Reachable.step Reachable.init (Step.upload ["012345678905"] initState)
  have h2 : Reachable exGeneratedState :=
    Reachable.step h1 (Step.chunk trivEnc ⟨260, 113⟩ true .png 0 ⟨0, 0⟩ exUploadedState)
  exact c9_artifact_only_if_valid exGeneratedState h2
    (stepEntry trivEnc .png ⟨260, 113⟩ true (processLine "012345678905"))
    (by decide) (by decide)
